import Mathlib

/-!
Verification development for the `rust-multer` streaming multipart parser.

Byte strings are modelled as `List Nat` (one entry per byte).  Pure Rust
functions become Lean functions; the streaming state machine becomes an
explicit machine record with a step function, and the asynchronous
`poll_next` driver becomes a pure function over the list of chunks the
upstream yields before ending.  Fallible code returns `Except`.
-/

set_option maxRecDepth 100000

deriving instance DecidableEq for Except

namespace Multer

/-- ASCII bytes of a Lean string literal (all inputs used here are ASCII). -/
def bs (s : String) : List Nat := s.toList.map Char.toNat

/-- Lowercase an ASCII byte, as Rust's `to_ascii_lowercase`. -/
def toLowerByte (c : Nat) : Nat := if 65 ≤ c ∧ c ≤ 90 then c + 32 else c

/-- Lowercase every byte of an ASCII byte string. -/
def toLowerBytes (s : List Nat) : List Nat := s.map toLowerByte

/-- Whitespace bytes removed by Rust `str::trim` on ASCII input. -/
def isWsByte (c : Nat) : Bool := c = 9 ∨ c = 10 ∨ c = 11 ∨ c = 12 ∨ c = 13 ∨ c = 32

/-- `str::trim` on a byte string: strip leading and trailing whitespace. -/
def trimBytes (s : List Nat) : List Nat :=
  ((s.dropWhile isWsByte).reverse.dropWhile isWsByte).reverse

/-- ASCII digit. -/
def isDigitByte (c : Nat) : Bool := 48 ≤ c ∧ c ≤ 57

/-- ASCII letter. -/
def isAlphaByte (c : Nat) : Bool := (65 ≤ c ∧ c ≤ 90) ∨ (97 ≤ c ∧ c ≤ 122)

/-- HTTP token byte (RFC 7230 tchar), as used by the `http` and `mime` crates. -/
def isTokenByte (c : Nat) : Bool :=
  isDigitByte c ∨ isAlphaByte c ∨
    [33, 35, 36, 37, 38, 39, 42, 43, 45, 46, 94, 95, 96, 124, 126].contains c

/-- `find_subslice` from `parser/stream.rs`: the index of the first window of
`haystack` equal to `needle`, with `some 0` for the empty needle. -/
def find_subslice (haystack needle : List Nat) : Option Nat :=
  if needle = [] then some 0 else go haystack 0
where
  /-- Scan positions left to right, mirroring `windows(..).position(..)`. -/
  go : List Nat → Nat → Option Nat
  | hay, i =>
    if needle.length ≤ hay.length then
      if needle.isPrefixOf hay then some i
      else
        match hay with
        | [] => none
        | _ :: t => go t (i + 1)
    else none

/-- `take_line` from `parser/stream.rs`: split the buffer at the first CRLF,
returning the line before it and the remaining buffer after it. -/
def take_line (buffer : List Nat) : Option (List Nat × List Nat) :=
  match find_subslice buffer [13, 10] with
  | none => none
  | some split => some (buffer.take split, buffer.drop (split + 2))

/-! ## Error taxonomy

`src/error.rs` in the snapshot holds only a bootstrap placeholder; the
variants below are reconstructed from their construction sites in
`parser/stream.rs`, `multipart.rs` and `selector.rs`. -/

/-- `ParseError`: a parse error carrying its message, as built by
`ParseError::new(msg)` in the source. -/
structure ParseError where
  msg : String
deriving DecidableEq

/-- `MulterError` variants, as constructed throughout the source. -/
inductive MulterError where
  | parse (e : ParseError)
  | incompleteStream
  | bodySizeLimitExceeded (maxBodySize : Nat)
  | fileSizeLimitExceeded (field : List Nat) (maxFileSize : Nat)
  | fieldSizeLimitExceeded (field : List Nat) (maxFieldSize : Nat)
  | filesLimitExceeded (maxFiles : Nat)
  | fieldsLimitExceeded (maxFields : Nat)
  | mimeTypeNotAllowed (field : List Nat) (mime : List Nat)
  | unexpectedField (field : List Nat)
  | fieldCountLimitExceeded (field : List Nat) (maxCount : Nat)
  | config (msg : String)
deriving DecidableEq

/-- Shorthand for a `MulterError` wrapping a `ParseError` message. -/
def parseErr (m : String) : MulterError := .parse ⟨m⟩

/-! ## Content-Type parsing (spec-modelled collaborator)

`extract_multipart_boundary` in `parser/boundary.rs` delegates the header
syntax to the external `mime` crate, whose source is not part of this
repository. -/

/-- Modelled from the spec: the accepted `Content-Type` header syntax of
section 6, `type "/" subtype *( ";" OWS name "=" (token | quoted-string) )`,
with case-insensitive type and subtype and case-sensitive parameter values.
This stands in for the external `mime` crate's `Mime` parser. -/
structure MimeParsed where
  essence : List Nat
  params : List (List Nat × List Nat)
deriving DecidableEq

/-- Modelled from the spec: a parameter value, either a token or a
quoted-string whose surrounding quotes are stripped. -/
def parseParamValue (s : List Nat) : Option (List Nat × List Nat) :=
  match s with
  | 34 :: r =>
    let v := r.takeWhile (fun c => c ≠ 34)
    match r.dropWhile (fun c => c ≠ 34) with
    | 34 :: r2 => some (v, r2)
    | _ => none
  | _ =>
    let v := s.takeWhile isTokenByte
    if v = [] then none else some (v, s.dropWhile isTokenByte)

/-- Modelled from the spec: the `";" OWS name "=" value` parameter list of the
accepted content-type syntax.  Parameter names are case-insensitive (stored
lowercased); values are case-sensitive.  Fuel bounds the recursion. -/
def parseParamsGo : Nat → List Nat → Option (List (List Nat × List Nat))
  | _, [] => some []
  | 0, _ => none
  | fuel + 1, 59 :: r =>
    let r1 := r.dropWhile (fun c => c = 32 ∨ c = 9)
    let name := r1.takeWhile isTokenByte
    let r2 := r1.dropWhile isTokenByte
    if name = [] then none
    else
      match r2 with
      | 61 :: r3 =>
        match parseParamValue r3 with
        | some (v, r4) =>
          match parseParamsGo fuel r4 with
          | some ps => some ((toLowerBytes name, v) :: ps)
          | none => none
        | none => none
      | _ => none
  | _ + 1, _ => none

/-- Modelled from the spec: parse a media type into its lowercased essence and
its parameter list (standing in for the external `mime` crate). -/
def parseMime (s : List Nat) : Option MimeParsed :=
  let ty := s.takeWhile isTokenByte
  match s.dropWhile isTokenByte with
  | 47 :: r2 =>
    let sub := r2.takeWhile isTokenByte
    let r3 := r2.dropWhile isTokenByte
    if ty = [] ∨ sub = [] then none
    else
      match parseParamsGo (r3.length + 1) r3 with
      | some ps => some ⟨toLowerBytes (ty ++ 47 :: sub), ps⟩
      | none => none
  | _ => none

/-- `get_param` on a parsed media type: first parameter with the given
(case-insensitive) name. -/
def getParam (mp : MimeParsed) (name : List Nat) : Option (List Nat) :=
  (mp.params.find? fun p => p.1 = toLowerBytes name).map Prod.snd

/-! ## `parser/boundary.rs` -/

/-- `is_boundary_char` from `parser/boundary.rs`, on ASCII byte codes:
alphanumeric or one of `' ( ) + _ , - . / : = ?` or space. -/
def is_boundary_char (c : Nat) : Bool :=
  isDigitByte c ∨ isAlphaByte c ∨
    [39, 40, 41, 43, 95, 44, 45, 46, 47, 58, 61, 63, 32].contains c

/-- `validate_boundary` from `parser/boundary.rs`. -/
def validate_boundary (b : List Nat) : Except ParseError Unit :=
  if b = [] then .error ⟨"multipart boundary cannot be empty"⟩
  else if b.length > 70 then .error ⟨"multipart boundary cannot exceed 70 characters"⟩
  else if b.getLast? = some 32 then .error ⟨"multipart boundary cannot end with whitespace"⟩
  else if b.all is_boundary_char then .ok ()
  else .error ⟨"multipart boundary contains invalid characters"⟩

/-- `extract_multipart_boundary` from `parser/boundary.rs`, with the external
`mime` crate replaced by the spec-modelled `parseMime`. -/
def extract_multipart_boundary (contentType : List Nat) : Except ParseError (List Nat) :=
  match parseMime contentType with
  | none => .error ⟨"invalid Content-Type header"⟩
  | some m =>
    if m.essence ≠ bs "multipart/form-data" then
      .error ⟨"Content-Type must be multipart/form-data"⟩
    else
      match getParam m (bs "boundary") with
      | none => .error ⟨"missing multipart boundary parameter"⟩
      | some b =>
        match validate_boundary b with
        | .error e => .error e
        | .ok _ => .ok b

/-- `validate_boundary_input` from `parser/stream.rs`: the only validation on
a caller-supplied boundary (non-empty, no CR, no LF). -/
def validate_boundary_input (b : List Nat) : Except ParseError Unit :=
  if b = [] then .error ⟨"multipart boundary cannot be empty"⟩
  else if b.contains 13 ∨ b.contains 10 then
    .error ⟨"multipart boundary cannot contain CRLF"⟩
  else .ok ()

/-! ## Part header parsing

`parse_header_block` lives in `parser/stream.rs`; `parse_part_headers` lives
in the absent `parser/headers.rs` and is modelled from the spec. -/

/-- Continuation byte of a UTF-8 sequence. -/
def isContByte (c : Nat) : Bool := 128 ≤ c ∧ c ≤ 191

/-- UTF-8 validity of a byte string, as checked by `std::str::from_utf8`. -/
def isValidUtf8 : List Nat → Bool
  | [] => true
  | c :: r =>
    if c ≤ 127 then isValidUtf8 r
    else if 194 ≤ c ∧ c ≤ 223 then
      match r with
      | c2 :: r2 => isContByte c2 && isValidUtf8 r2
      | [] => false
    else if c = 224 then
      match r with
      | c2 :: c3 :: r3 => (160 ≤ c2 && c2 ≤ 191) && isContByte c3 && isValidUtf8 r3
      | _ => false
    else if (225 ≤ c ∧ c ≤ 236) ∨ c = 238 ∨ c = 239 then
      match r with
      | c2 :: c3 :: r3 => isContByte c2 && isContByte c3 && isValidUtf8 r3
      | _ => false
    else if c = 237 then
      match r with
      | c2 :: c3 :: r3 => (128 ≤ c2 && c2 ≤ 159) && isContByte c3 && isValidUtf8 r3
      | _ => false
    else if c = 240 then
      match r with
      | c2 :: c3 :: c4 :: r4 =>
        (144 ≤ c2 && c2 ≤ 191) && isContByte c3 && isContByte c4 && isValidUtf8 r4
      | _ => false
    else if 241 ≤ c ∧ c ≤ 243 then
      match r with
      | c2 :: c3 :: c4 :: r4 => isContByte c2 && isContByte c3 && isContByte c4 && isValidUtf8 r4
      | _ => false
    else if c = 244 then
      match r with
      | c2 :: c3 :: c4 :: r4 =>
        (128 ≤ c2 && c2 ≤ 143) && isContByte c3 && isContByte c4 && isValidUtf8 r4
      | _ => false
    else false

/-- `str::split("\r\n")` on a byte string. -/
def splitCrlf : List Nat → List (List Nat)
  | [] => [[]]
  | 13 :: 10 :: r => [] :: splitCrlf r
  | c :: r =>
    match splitCrlf r with
    | [] => [[c]]
    | l :: ls => (c :: l) :: ls

/-- Validity of a header name for `HeaderName::parse` (non-empty HTTP token). -/
def headerNameOk (n : List Nat) : Bool := n ≠ [] && n.all isTokenByte

/-- Validity of a header value for `HeaderValue::from_str`. -/
def headerValueOk (v : List Nat) : Bool := v.all fun c => c = 9 ∨ (32 ≤ c ∧ c ≠ 127)

/-- The line loop of `parse_header_block`: skip empty lines, split each line on
the first `:`, trim, validate name and value, and keep insertion order.
Header names are stored lowercased, as `HeaderName` normalizes them. -/
def parseHeaderLines : List (List Nat) → Except ParseError (List (List Nat × List Nat))
  | [] => .ok []
  | line :: rest =>
    if line = [] then parseHeaderLines rest
    else
      match find_subslice line [58] with
      | none => .error ⟨"invalid part header line"⟩
      | some i =>
        let name := trimBytes (line.take i)
        let value := trimBytes (line.drop (i + 1))
        if ¬ headerNameOk name then .error ⟨"invalid part header name"⟩
        else if ¬ headerValueOk value then .error ⟨"invalid part header value"⟩
        else
          match parseHeaderLines rest with
          | .ok hs => .ok ((toLowerBytes name, value) :: hs)
          | .error e => .error e

/-- `parse_header_block` from `parser/stream.rs`. -/
def parse_header_block (raw : List Nat) : Except ParseError (List (List Nat × List Nat)) :=
  if ¬ isValidUtf8 raw then .error ⟨"part headers must be UTF-8"⟩
  else
    match parseHeaderLines (splitCrlf raw) with
    | .ok hs =>
      if hs.any (fun p => p.1 = bs "content-disposition") then .ok hs
      else .error ⟨"missing Content-Disposition header"⟩
    | .error e => .error e

/-- First header with the given lowercased name, as `HeaderMap` lookup. -/
def findHeader (hs : List (List Nat × List Nat)) (name : List Nat) : Option (List Nat) :=
  (hs.find? fun p => p.1 = name).map Prod.snd

/-- Modelled from the spec: HTTP quoted-string body with backslash quoting,
consumed after the opening quote, returning content and remaining input. -/
def parseQuotedEscGo : Nat → List Nat → Option (List Nat × List Nat)
  | 0, _ => none
  | _ + 1, [] => none
  | _ + 1, 34 :: r => some ([], r)
  | fuel + 1, 92 :: c :: r =>
    match parseQuotedEscGo fuel r with
    | some (v, rest) => some (c :: v, rest)
    | none => none
  | fuel + 1, c :: r =>
    match parseQuotedEscGo fuel r with
    | some (v, rest) => some (c :: v, rest)
    | none => none

/-- Modelled from the spec: a `Content-Disposition` parameter value, a token
or a quoted-string with standard HTTP quoting. -/
def parseDispValue (s : List Nat) : Option (List Nat × List Nat) :=
  match s with
  | 34 :: r => parseQuotedEscGo (r.length + 1) r
  | _ =>
    let v := s.takeWhile isTokenByte
    if v = [] then none else some (v, s.dropWhile isTokenByte)

/-- Modelled from the spec: the `;`-separated parameter list of a
`Content-Disposition` value.  Names are case-insensitive. -/
def parseDispParamsGo : Nat → List Nat → Option (List (List Nat × List Nat))
  | _, [] => some []
  | 0, _ => none
  | fuel + 1, 59 :: r =>
    let r1 := r.dropWhile (fun c => c = 32 ∨ c = 9)
    let name := r1.takeWhile isTokenByte
    let r2 := r1.dropWhile isTokenByte
    if name = [] then none
    else
      match r2 with
      | 61 :: r3 =>
        match parseDispValue r3 with
        | some (v, r4) =>
          match parseDispParamsGo fuel r4 with
          | some ps => some ((toLowerBytes name, v) :: ps)
          | none => none
        | none => none
      | _ => none
  | _ + 1, _ => none

/-- Hex digit value. -/
def hexVal (c : Nat) : Option Nat :=
  if 48 ≤ c ∧ c ≤ 57 then some (c - 48)
  else if 65 ≤ c ∧ c ≤ 70 then some (c - 55)
  else if 97 ≤ c ∧ c ≤ 102 then some (c - 87)
  else none

/-- Percent-decoding of a byte string. -/
def pctDecodeGo : Nat → List Nat → Option (List Nat)
  | _, [] => some []
  | 0, _ => none
  | fuel + 1, 37 :: h1 :: h2 :: r =>
    match hexVal h1, hexVal h2, pctDecodeGo fuel r with
    | some a, some b, some rest => some ((a * 16 + b) :: rest)
    | _, _, _ => none
  | _ + 1, 37 :: _ => none
  | fuel + 1, c :: r =>
    match pctDecodeGo fuel r with
    | some rest => some (c :: rest)
    | none => none

/-- Modelled from the spec: RFC 5987 decoding of a `filename*` value
(`charset ' language ' percent-encoded`), yielding the decoded bytes. -/
def decode5987 (v : List Nat) : Option (List Nat) :=
  match find_subslice v [39] with
  | none => none
  | some i =>
    let rest := v.drop (i + 1)
    match find_subslice rest [39] with
    | none => none
    | some j =>
      let enc := rest.drop (j + 1)
      pctDecodeGo (enc.length + 1) enc

/-- Parsed part headers, the shape produced by the absent
`parser/headers.rs` (`ParsedPartHeaders`): field name, optional file name,
and the content-type essence (lowercased). -/
structure ParsedPartHeaders where
  field_name : List Nat
  file_name : Option (List Nat)
  content_type : List Nat
deriving DecidableEq

/-- Modelled from the spec: default content type of section 4.2 —
`text/plain` for file-less parts, `application/octet-stream` for files. -/
def defaultContentType (fileName : Option (List Nat)) : List Nat :=
  if fileName.isSome then bs "application/octet-stream" else bs "text/plain"

/-- Modelled from the spec: `parse_part_headers` of the absent
`parser/headers.rs` (spec section 4.2).  `Content-Disposition` is mandatory
with disposition type `form-data`; parameter `name` is required and
`filename` optional; `filename*` (RFC 5987) overrides `filename`;
`Content-Type` is optional with kind-dependent default when absent or
unparseable. -/
def parse_part_headers (hs : List (List Nat × List Nat)) : Except ParseError ParsedPartHeaders :=
  match findHeader hs (bs "content-disposition") with
  | none => .error ⟨"missing Content-Disposition header"⟩
  | some v =>
    let dispType := trimBytes (v.takeWhile fun c => c ≠ 59)
    let rest := v.dropWhile fun c => c ≠ 59
    if toLowerBytes dispType ≠ bs "form-data" then
      .error ⟨"Content-Disposition must be form-data"⟩
    else
      match parseDispParamsGo (rest.length + 1) rest with
      | none => .error ⟨"invalid Content-Disposition header"⟩
      | some ps =>
        match findHeader ps (bs "name") with
        | none => .error ⟨"missing part name"⟩
        | some nm =>
          let star := (findHeader ps (bs "filename*")).bind decode5987
          let fileName := star.or (findHeader ps (bs "filename"))
          let ct :=
            match findHeader hs (bs "content-type") with
            | some tv =>
              match parseMime tv with
              | some m => m.essence
              | none => defaultContentType fileName
            | none => defaultContentType fileName
          .ok ⟨nm, fileName, ct⟩

/-! ## `parser/stream.rs` — the streaming state machine -/

/-- `ParsedPart` from `parser/stream.rs`: parsed headers plus the raw body
bytes of one part. -/
structure ParsedPart where
  headers : ParsedPartHeaders
  body : List Nat
deriving DecidableEq

/-- `ParseState` from `parser/stream.rs`. -/
inductive ParseState where
  | startBoundary
  | headers
  | body
  | atEnd
  | failed
deriving DecidableEq

/-- `StreamLimits` from `parser/stream.rs`. -/
structure StreamLimits where
  max_file_size : Option Nat := none
  max_field_size : Option Nat := none
  max_body_size : Option Nat := none
deriving DecidableEq

/-- The state of a `MultipartStream` (its byte source factored out; the
chunks still to arrive are threaded separately by the driver). -/
structure Machine where
  boundary_line : List Nat
  boundary_end_line : List Nat
  delimiter : List Nat
  buffer : List Nat
  state : ParseState
  current_headers : Option ParsedPartHeaders
  current_part_max_size : Option Nat
  current_part_is_file : Bool
  limits : StreamLimits
  received_body_bytes : Nat
  upstream_done : Bool
deriving DecidableEq

/-- The initial machine built by `MultipartStream::with_limits` once the
boundary has passed `validate_boundary_input`, with its three precomputed
sentinels. -/
def mkStream (boundary : List Nat) (limits : StreamLimits) : Machine :=
  { boundary_line := 45 :: 45 :: boundary
    boundary_end_line := 45 :: 45 :: boundary ++ [45, 45]
    delimiter := 13 :: 10 :: 45 :: 45 :: boundary
    buffer := []
    state := .startBoundary
    current_headers := none
    current_part_max_size := none
    current_part_is_file := false
    limits := limits
    received_body_bytes := 0
    upstream_done := false }

/-- `MultipartStream::with_limits`: validate the supplied boundary and build
the initial machine. -/
def MultipartStream.with_limits (boundary : List Nat) (limits : StreamLimits) :
    Except ParseError Machine :=
  match validate_boundary_input boundary with
  | .error e => .error e
  | .ok _ => .ok (mkStream boundary limits)

/-- `size_limit_error` from `parser/stream.rs`. -/
def size_limit_error (field : List Nat) (isFile : Bool) (limit : Nat) : MulterError :=
  if isFile then .fileSizeLimitExceeded field limit else .fieldSizeLimitExceeded field limit

/-- `ParseOutcome` from `parser/stream.rs`. -/
inductive ParseOutcome where
  | needMore
  | emit (item : Except MulterError ParsedPart)
  | done
deriving DecidableEq

/-- `has_malformed_boundary_line` from `parser/stream.rs`: a `CRLF --`
sequence whose following complete line is neither boundary sentinel. -/
def has_malformed_boundary_line (buffer boundaryLine boundaryEndLine : List Nat) : Bool :=
  match find_subslice buffer [13, 10, 45, 45] with
  | none => false
  | some i =>
    let lineStart := i + 2
    match find_subslice (buffer.drop lineStart) [13, 10] with
    | none => false
    | some relEnd =>
      let line := (buffer.drop lineStart).take relEnd
      line ≠ boundaryLine ∧ line ≠ boundaryEndLine

/-- The tail of the `Body` arm after the post-emission size check: take the
current headers (failing if absent), clear the per-part state, and emit the
part, moving to `End` or back to `Headers`. -/
def finishPart (m1 : Machine) (body : List Nat) (isTerminal : Bool) : Machine × ParseOutcome :=
  match m1.current_headers with
  | none => ({ m1 with state := .failed }, .emit (.error (parseErr "missing part headers")))
  | some h =>
    ({ m1 with
        current_headers := none
        current_part_max_size := none
        current_part_is_file := false
        state := if isTerminal then .atEnd else .headers },
      .emit (.ok ⟨h, body⟩))

/-- The `ParseState::Body` arm of `parse_available`. -/
def stepBody (m : Machine) : Machine × ParseOutcome :=
  match find_subslice m.buffer m.delimiter with
  | none =>
    match m.current_part_max_size with
    | some limit =>
      let maxTail := m.delimiter.length - 1
      let guaranteed := m.buffer.length - maxTail
      if guaranteed > limit then
        match m.current_headers with
        | none => ({ m with state := .failed }, .emit (.error (parseErr "missing part headers")))
        | some h =>
          ({ m with state := .failed },
            .emit (.error (size_limit_error h.field_name m.current_part_is_file limit)))
      else if has_malformed_boundary_line m.buffer m.boundary_line m.boundary_end_line then
        ({ m with state := .failed }, .emit (.error (parseErr "malformed multipart boundary")))
      else (m, .needMore)
    | none =>
      if has_malformed_boundary_line m.buffer m.boundary_line m.boundary_end_line then
        ({ m with state := .failed }, .emit (.error (parseErr "malformed multipart boundary")))
      else (m, .needMore)
  | some split =>
    let suffixStart := split + m.delimiter.length
    if suffixStart > m.buffer.length then (m, .needMore)
    else
      let suffix := m.buffer.drop suffixStart
      let terminalQ : Option (Nat × Bool) :=
        if [45, 45, 13, 10].isPrefixOf suffix then some (suffixStart + 4, true)
        else if [13, 10].isPrefixOf suffix then some (suffixStart + 2, false)
        else if m.upstream_done ∧ suffix = [45, 45] then some (suffixStart + 2, true)
        else none
      match terminalQ with
      | none =>
        ({ m with state := .failed }, .emit (.error (parseErr "malformed multipart boundary")))
      | some (consumed, isTerminal) =>
        let body := m.buffer.take split
        let m1 := { m with buffer := m.buffer.drop consumed }
        match m1.current_part_max_size with
        | some limit =>
          if body.length > limit then
            match m1.current_headers with
            | none =>
              ({ m1 with state := .failed }, .emit (.error (parseErr "missing part headers")))
            | some h =>
              ({ m1 with state := .failed },
                .emit (.error (size_limit_error h.field_name m1.current_part_is_file limit)))
          else finishPart m1 body isTerminal
        | none => finishPart m1 body isTerminal

/-- The `ParseState::Headers` arm of `parse_available`; on success it falls
through to the `Body` arm within the same call, as the source's loop does. -/
def stepHeaders (m : Machine) : Machine × ParseOutcome :=
  match find_subslice m.buffer [13, 10, 13, 10] with
  | none => (m, .needMore)
  | some split =>
    let raw := m.buffer.take split
    let m1 := { m with buffer := m.buffer.drop (split + 4) }
    match (parse_header_block raw).bind parse_part_headers with
    | .error e => ({ m1 with state := .failed }, .emit (.error (.parse e)))
    | .ok h =>
      let isFile := h.file_name.isSome
      stepBody
        { m1 with
            current_headers := some h
            current_part_is_file := isFile
            current_part_max_size :=
              if isFile then m1.limits.max_file_size else m1.limits.max_field_size
            state := .body }

/-- `parse_available` from `parser/stream.rs`: run the state machine on the
buffered bytes until it emits, finishes, or needs more input. -/
def parse_available (m : Machine) : Machine × ParseOutcome :=
  match m.state with
  | .startBoundary =>
    match take_line m.buffer with
    | none =>
      if m.upstream_done then
        (m, .emit (.error (parseErr "missing opening boundary")))
      else (m, .needMore)
    | some (line, rest) =>
      let m1 := { m with buffer := rest }
      if line = m1.boundary_line then stepHeaders { m1 with state := .headers }
      else if line = m1.boundary_end_line then ({ m1 with state := .atEnd }, .done)
      else ({ m1 with state := .failed }, .emit (.error (parseErr "malformed opening boundary")))
  | .headers => stepHeaders m
  | .body => stepBody m
  | .atEnd => (m, .done)
  | .failed => (m, .done)

/-- One `poll_next` of the `Stream` impl for `MultipartStream`, with the
upstream modelled as the list of chunks it will yield before ending.
Returns the emitted item (`none` for end of stream), the machine, and the
chunks not yet consumed. -/
def pollNextGo : List (List Nat) → Machine →
    Option (Except MulterError ParsedPart) × Machine × List (List Nat)
  | chunks, m =>
    match parse_available m with
    | (m', .emit e) => (some e, m', chunks)
    | (m', .done) => (none, m', chunks)
    | (m', .needMore) =>
      if m'.upstream_done then
        (some (.error .incompleteStream), { m' with state := .failed }, chunks)
      else
        match chunks with
        | [] =>
          let m2 := { m' with upstream_done := true }
          match parse_available m2 with
          | (m3, .emit e) => (some e, m3, [])
          | (m3, .done) => (none, m3, [])
          | (m3, .needMore) => (some (.error .incompleteStream), { m3 with state := .failed }, [])
        | c :: rest =>
          if c = [] then pollNextGo rest m'
          else
            match m'.limits.max_body_size with
            | some maxB =>
              let next := m'.received_body_bytes + c.length
              if next > maxB then
                (some (.error (.bodySizeLimitExceeded maxB)), { m' with state := .failed }, rest)
              else
                pollNextGo rest { m' with received_body_bytes := next, buffer := m'.buffer ++ c }
            | none => pollNextGo rest { m' with buffer := m'.buffer ++ c }

/-- `pollNext` in the argument order of the source (`self`, then upstream). -/
def pollNext (m : Machine) (chunks : List (List Nat)) :
    Option (Except MulterError ParsedPart) × Machine × List (List Nat) :=
  pollNextGo chunks m

/-- Drive `pollNext` repeatedly, collecting every emitted item (parts and
errors) until the stream reports end-of-stream or the fuel runs out. -/
def runPolls : Nat → Machine → List (List Nat) → List (Except MulterError ParsedPart)
  | 0, _, _ => []
  | fuel + 1, m, chunks =>
    match pollNext m chunks with
    | (none, _, _) => []
    | (some e, m', chunks') => e :: runPolls fuel m' chunks'

/-! ## `selector.rs` — the selector engine -/

/-- `SelectorAction` from `selector.rs`. -/
inductive SelectorAction where
  | accept
  | ignore
deriving DecidableEq

/-- `SelectedFieldKind` from the absent `config.rs`, as used by `field.rs`
and `selector.rs`. -/
inductive SelectedFieldKind where
  | file
  | text
deriving DecidableEq

/-- `SelectedField` from the absent `config.rs`; its shape is fixed by the
`From` impls in `field.rs`. -/
structure SelectedField where
  name : List Nat
  kind : SelectedFieldKind
  max_count : Option Nat
  max_size : Option Nat
  allowed_mime_types : List (List Nat)
deriving DecidableEq

/-- `Selector` from the absent `config.rs`; its variants are fixed by the
matches in `selector.rs` and the constructors used in `builder.rs`. -/
inductive Selector where
  | single (name : List Nat)
  | array (name : List Nat) (maxCount : Option Nat)
  | fields (fs : List SelectedField)
  | selNone
  | selAny
deriving DecidableEq

/-- `UnknownFieldPolicy` from the absent `config.rs`. -/
inductive UnknownFieldPolicy where
  | reject
  | ignore
deriving DecidableEq

/-- `FieldRules` from `selector.rs`. -/
structure FieldRules where
  kind : SelectedFieldKind
  max_count : Option Nat
  max_size : Option Nat
  allowed_mime_types : List (List Nat)
deriving DecidableEq

/-- `HashMap::get` on an association-list model of a string-keyed map. -/
def mapLookup {α : Type} : List (List Nat × α) → List Nat → Option α
  | [], _ => none
  | (k', v) :: t, k => if k' = k then some v else mapLookup t k

/-- `HashMap::insert` on the association-list model: overwrite the binding
for the key, or append a fresh one. -/
def mapInsert {α : Type} : List (List Nat × α) → List Nat → α → List (List Nat × α)
  | [], k, v => [(k, v)]
  | (k', v') :: t, k, v => if k' = k then (k, v) :: t else (k', v') :: mapInsert t k v

/-- `build_fields_map` from `selector.rs`. -/
def build_fields_map (s : Selector) : List (List Nat × FieldRules) :=
  match s with
  | .fields fs =>
    fs.foldl
      (fun acc f => mapInsert acc f.name ⟨f.kind, f.max_count, f.max_size, f.allowed_mime_types⟩)
      []
  | _ => []

/-- `SelectorEngine` from `selector.rs`. -/
structure SelectorEngine where
  selector : Selector
  unknown_field_policy : UnknownFieldPolicy
  counts : List (List Nat × Nat)
  fields : List (List Nat × FieldRules)
deriving DecidableEq

/-- `SelectorEngine::new`. -/
def SelectorEngine.new (sel : Selector) (pol : UnknownFieldPolicy) : SelectorEngine :=
  ⟨sel, pol, [], build_fields_map sel⟩

/-- `handle_unknown_field` from `selector.rs` (reads only the policy). -/
def handle_unknown_field (e : SelectorEngine) (fieldName : List Nat) :
    Except MulterError SelectorAction :=
  match e.unknown_field_policy with
  | .reject => .error (.unexpectedField fieldName)
  | .ignore => .ok .ignore

/-- `record_with_limit` from `selector.rs`: bump the per-field count unless
that would exceed the limit, in which case error without recording. -/
def record_with_limit (e : SelectorEngine) (fieldName : List Nat) (maxCount : Option Nat) :
    Except MulterError SelectorEngine :=
  let next := (mapLookup e.counts fieldName).getD 0 + 1
  match maxCount with
  | some mc =>
    if next > mc then .error (.fieldCountLimitExceeded fieldName mc)
    else .ok { e with counts := mapInsert e.counts fieldName next }
  | none => .ok { e with counts := mapInsert e.counts fieldName next }

/-- `evaluate_file_field` from `selector.rs`; the returned engine carries the
count mutation (the source takes `&mut self`). -/
def evaluate_file_field (e : SelectorEngine) (fieldName : List Nat) :
    Except MulterError SelectorAction × SelectorEngine :=
  match e.selector with
  | .single name =>
    if fieldName ≠ name then (handle_unknown_field e fieldName, e)
    else
      match record_with_limit e fieldName (some 1) with
      | .error err => (.error err, e)
      | .ok e' => (.ok .accept, e')
  | .array name maxCount =>
    if fieldName ≠ name then (handle_unknown_field e fieldName, e)
    else
      match record_with_limit e fieldName maxCount with
      | .error err => (.error err, e)
      | .ok e' => (.ok .accept, e')
  | .fields _ =>
    match mapLookup e.fields fieldName with
    | none => (handle_unknown_field e fieldName, e)
    | some rules =>
      if rules.kind ≠ .file then (handle_unknown_field e fieldName, e)
      else
        match record_with_limit e fieldName rules.max_count with
        | .error err => (.error err, e)
        | .ok e' => (.ok .accept, e')
  | .selNone => (handle_unknown_field e fieldName, e)
  | .selAny => (.ok .accept, e)

/-- `evaluate_text_field` from `selector.rs` (takes `&self`: no mutation). -/
def evaluate_text_field (e : SelectorEngine) (fieldName : List Nat) :
    Except MulterError SelectorAction :=
  match e.selector with
  | .fields _ =>
    match mapLookup e.fields fieldName with
    | none => handle_unknown_field e fieldName
    | some rules =>
      if rules.kind ≠ .text then handle_unknown_field e fieldName
      else .ok .accept
  | _ => .ok .accept

/-- `field_allowed_mime_types` from `selector.rs`. -/
def field_allowed_mime_types (e : SelectorEngine) (fieldName : List Nat) :
    Option (List (List Nat)) :=
  (mapLookup e.fields fieldName).map FieldRules.allowed_mime_types

/-! ## Limits and MIME matching

`limits.rs` is absent from the snapshot; `Limits` and its matching rule are
modelled from spec sections 3 and 4.5. -/

/-- Modelled from the spec: the `Limits` bundle of section 3 (the absent
`limits.rs`). -/
structure Limits where
  max_file_size : Option Nat := none
  max_field_size : Option Nat := none
  max_body_size : Option Nat := none
  max_files : Option Nat := none
  max_fields : Option Nat := none
  allowed_mime_types : List (List Nat) := []
deriving DecidableEq

/-- Modelled from the spec: MIME pattern matching of section 4.5 — exact
essence match, or `type/*` matching any subtype of `type`; ASCII
case-insensitive on the essence. -/
def mimePatternMatches (pat essence : List Nat) : Bool :=
  let p := toLowerBytes pat
  let e := toLowerBytes essence
  if p.reverse.take 2 = [42, 47] then (p.take (p.length - 1)).isPrefixOf e
  else p = e

/-- Modelled from the spec: `Limits::is_mime_allowed` of section 4.5 — with
an empty allow-list every essence is allowed, otherwise at least one pattern
must match. -/
def is_mime_allowed (l : Limits) (essence : List Nat) : Bool :=
  l.allowed_mime_types.isEmpty || l.allowed_mime_types.any (mimePatternMatches · essence)

/-- Modelled from the spec: `MulterConfig` of section 3 (the absent
`config.rs`). -/
structure MulterConfig where
  selector : Selector := .selAny
  unknown_field_policy : UnknownFieldPolicy := .ignore
  limits : Limits := {}
deriving DecidableEq

/-- Non-empty names of a selector, used by config validation. -/
def Selector.namesOk : Selector → Bool
  | .single name => name ≠ []
  | .array name _ => name ≠ []
  | .fields fs => fs.all fun f => f.name ≠ []
  | .selNone => true
  | .selAny => true

/-- Modelled from the spec: `MulterConfig::validate` of section 4.7 — reject
`max_count = 0` in `Array` and empty field names. -/
def MulterConfig.validate (c : MulterConfig) : Except MulterError Unit :=
  match c.selector with
  | .array _ (some 0) => .error (.config "array max_count must be at least 1")
  | _ =>
    if c.selector.namesOk then .ok ()
    else .error (.config "field name cannot be empty")

/-! ## `multipart.rs` — the facade -/

/-- `Multipart` from `multipart.rs`. -/
structure Multipart where
  inner : Machine
  selector : SelectorEngine
  limits : Limits
  file_count : Nat
  field_count : Nat
deriving DecidableEq

/-- The `Multipart` built by `Multipart::with_config` once the config and
boundary have been validated. -/
def mkMultipart (boundary : List Nat) (config : MulterConfig) : Multipart :=
  ⟨mkStream boundary
      ⟨config.limits.max_file_size, config.limits.max_field_size, config.limits.max_body_size⟩,
    SelectorEngine.new config.selector config.unknown_field_policy, config.limits, 0, 0⟩

/-- `Multipart::with_config`. -/
def Multipart.with_config (boundary : List Nat) (config : MulterConfig) :
    Except MulterError Multipart :=
  match config.validate with
  | .error e => .error e
  | .ok _ =>
    match
      MultipartStream.with_limits boundary
        ⟨config.limits.max_file_size, config.limits.max_field_size,
          config.limits.max_body_size⟩ with
    | .error e => .error (.parse e)
    | .ok mach =>
      .ok ⟨mach, SelectorEngine.new config.selector config.unknown_field_policy,
        config.limits, 0, 0⟩

/-- `validate_text_part` from `multipart.rs`; the returned `Multipart`
carries the `field_count` mutation (the source takes `&mut self`). -/
def validate_text_part (mp : Multipart) (p : ParsedPart) :
    Except MulterError Unit × Multipart :=
  let szErr : Option MulterError :=
    match mp.limits.max_field_size with
    | some maxFieldSize =>
      if p.body.length > maxFieldSize then
        some (.fieldSizeLimitExceeded p.headers.field_name maxFieldSize)
      else none
    | none => none
  match szErr with
  | some e => (.error e, mp)
  | none =>
    let mp1 := { mp with field_count := mp.field_count + 1 }
    match mp1.limits.max_fields with
    | some maxFields =>
      if mp1.field_count > maxFields then (.error (.fieldsLimitExceeded maxFields), mp1)
      else (.ok (), mp1)
    | none => (.ok (), mp1)

/-- `validate_file_part` from `multipart.rs`: per-file size cap, then the
global MIME allow-list, then the global file count. -/
def validate_file_part (mp : Multipart) (p : ParsedPart) :
    Except MulterError Unit × Multipart :=
  let szErr : Option MulterError :=
    match mp.limits.max_file_size with
    | some maxFileSize =>
      if p.body.length > maxFileSize then
        some (.fileSizeLimitExceeded p.headers.field_name maxFileSize)
      else none
    | none => none
  match szErr with
  | some e => (.error e, mp)
  | none =>
    if ¬ is_mime_allowed mp.limits p.headers.content_type then
      (.error (.mimeTypeNotAllowed p.headers.field_name p.headers.content_type), mp)
    else
      let mp1 := { mp with file_count := mp.file_count + 1 }
      match mp1.limits.max_files with
      | some maxFiles =>
        if mp1.file_count > maxFiles then (.error (.filesLimitExceeded maxFiles), mp1)
        else (.ok (), mp1)
      | none => (.ok (), mp1)

/-- One `poll_next` of the `Stream` impl for `Multipart` (`multipart.rs`):
pull from the inner machine, route text parts through the text validation,
file parts through the selector and file validation, and loop on `Ignore`.
Fuel bounds the ignore loop; every use below supplies enough of it. -/
def multipartPoll :
    Nat → Multipart → List (List Nat) →
      Option (Except MulterError ParsedPart) × Multipart × List (List Nat)
  | 0, mp, chunks => (none, mp, chunks)
  | fuel + 1, mp, chunks =>
    match pollNext mp.inner chunks with
    | (some (.ok parsed), inner', chunks') =>
      let mp1 := { mp with inner := inner' }
      if parsed.headers.file_name.isNone then
        match validate_text_part mp1 parsed with
        | (.ok _, mp2) => (some (.ok parsed), mp2, chunks')
        | (.error e, mp2) => (some (.error e), mp2, chunks')
      else
        match evaluate_file_field mp1.selector parsed.headers.field_name with
        | (.ok .accept, se') =>
          let mp2 := { mp1 with selector := se' }
          match validate_file_part mp2 parsed with
          | (.ok _, mp3) => (some (.ok parsed), mp3, chunks')
          | (.error e, mp3) => (some (.error e), mp3, chunks')
        | (.ok .ignore, se') => multipartPoll fuel { mp1 with selector := se' } chunks'
        | (.error e, se') => (some (.error e), { mp1 with selector := se' }, chunks')
    | (some (.error e), inner', chunks') => (some (.error e), { mp with inner := inner' }, chunks')
    | (none, inner', chunks') => (none, { mp with inner := inner' }, chunks')

/-- Modelled from the spec: `next_part()` of section 4.7 (the absent
`part.rs` surface) — the transposition of one facade poll into
`Result of Option`. -/
def next_part (fuel : Nat) (mp : Multipart) (chunks : List (List Nat)) :
    Except MulterError (Option ParsedPart) × Multipart × List (List Nat) :=
  match multipartPoll fuel mp chunks with
  | (some (.ok p), mp', ch) => (.ok (some p), mp', ch)
  | (some (.error e), mp', ch) => (.error e, mp', ch)
  | (none, mp', ch) => (.ok none, mp', ch)

/-! ## Concrete inputs used by the theorems -/

/-- Scenario 1 of the spec: a text field `note` with body `hi`, then a file
`up`/`a.txt` of type `text/plain` with body `hello`, boundary `BOUND`. -/
def scenario1Body : List Nat :=
  bs "--BOUND\r\nContent-Disposition: form-data; name=\"note\"\r\n\r\nhi\r\n--BOUND\r\nContent-Disposition: form-data; name=\"up\"; filename=\"a.txt\"\r\nContent-Type: text/plain\r\n\r\nhello\r\n--BOUND--\r\n"

/-- Split a byte string into chunks of `n` bytes (the last one shorter). -/
def chunksOf (n : Nat) (l : List Nat) : List (List Nat) :=
  go l.length l
where
  /-- Fuelled splitting loop. -/
  go : Nat → List Nat → List (List Nat)
  | 0, _ => []
  | _, [] => []
  | fuel + 1, l => l.take n :: go fuel (l.drop n)

/-- The two parts scenario 1 must yield. -/
def scenario1Parts : List (Except MulterError ParsedPart) :=
  [.ok ⟨⟨bs "note", none, bs "text/plain"⟩, bs "hi"⟩,
    .ok ⟨⟨bs "up", some (bs "a.txt"), bs "text/plain"⟩, bs "hello"⟩]

/-- A single-part body whose closing `--B--` is not followed by CRLF. -/
def noCrlfTailBody : List Nat :=
  bs "--B\r\nContent-Disposition: form-data; name=\"a\"\r\n\r\nhi\r\n--B--"

/-- One part's headers, then forty one-byte body chunks and no delimiter:
the upstream ends mid-part. -/
def fortyOneByteChunks : List (List Nat) :=
  bs "--B\r\nContent-Disposition: form-data; name=\"a\"\r\n\r\n" :: List.replicate 40 [97]

/-- Config with one selected file field `f` restricted to `image/png`. -/
def perFieldMimeConfig : MulterConfig :=
  { selector := .fields [⟨bs "f", .file, none, none, [bs "image/png"]⟩]
    unknown_field_policy := .reject
    limits := {} }

/-- One file part named `f` with content type `text/plain`. -/
def perFieldMimeBody : List Nat :=
  bs "--B\r\nContent-Disposition: form-data; name=\"f\"; filename=\"x\"\r\nContent-Type: text/plain\r\n\r\nhi\r\n--B--\r\n"

/-- A machine about to parse the headers of a 10-byte file-less part under a
2-byte field-size limit, used to witness the early-enforcement theorem. -/
def headersOverfullMachine : Machine :=
  { mkStream (bs "B") { max_field_size := some 2 } with
      state := .headers
      buffer := bs "Content-Disposition: form-data; name=\"a\"\r\n\r\n0123456789" }

/-- A machine in the `Body` state whose buffer holds a complete part body
`hi`, its delimiter and a non-terminal suffix. -/
def bodyEmitMachine : Machine :=
  { mkStream (bs "B") {} with
      state := .body
      current_headers := some ⟨bs "a", none, bs "text/plain"⟩
      buffer := bs "hi\r\n--B\r\nX" }

/-- A fresh `Array photos, max 2` engine with `Reject` policy. -/
def photosEngine0 : SelectorEngine :=
  SelectorEngine.new (.array (bs "photos") (some 2)) .reject

/-- The `photos` engine after one accepted `photos` part. -/
def photosEngine1 : SelectorEngine :=
  { photosEngine0 with counts := [(bs "photos", 1)] }

/-- The `photos` engine after two accepted `photos` parts. -/
def photosEngine2 : SelectorEngine :=
  { photosEngine0 with counts := [(bs "photos", 2)] }

/-- A fresh `Single avatar` engine with `Reject` policy. -/
def singleAvatarEngine : SelectorEngine :=
  SelectorEngine.new (.single (bs "avatar")) .reject

/-- An `Array photos, max 2` engine whose count for `photos` already sits at
the limit. -/
def photosAtLimitEngine : SelectorEngine :=
  { SelectorEngine.new (.array (bs "photos") (some 2)) .reject with
      counts := [(bs "photos", 2)] }

/-- The boundary character set exactly as the spec's words give it:
`[A-Za-z0-9'()+_,./:=? ]` (no hyphen). -/
def specBoundaryChar (c : Nat) : Bool :=
  isDigitByte c ∨ isAlphaByte c ∨ [39, 40, 41, 43, 95, 44, 46, 47, 58, 61, 63, 32].contains c

/-- The amended boundary character set: the spec's set plus the hyphen the
source accepts. -/
def amendedBoundaryChar (c : Nat) : Bool :=
  isDigitByte c ∨ isAlphaByte c ∨ [39, 40, 41, 43, 95, 44, 45, 46, 47, 58, 61, 63, 32].contains c

/-! ## Claims -/

set_option maxHeartbeats 4000000

/-- C1: the spec claims the emitted part sequence is independent of how the
body bytes are chunked.  The code violates this: when a chunk ends exactly
at the delimiter (its suffix not yet buffered), the `Body` arm inspects the
empty suffix and fails with `malformed multipart boundary` instead of
waiting for more input — the `NeedMore` fallback guarding the suffix slice
is unreachable.  A valid body as one chunk yields its parts, while any
split landing directly after a delimiter yields a parse error; in
particular the spec's scenario-1 body yields its two parts as a single
chunk but a `malformed multipart boundary` parse error in chunks of
size 1. -/
theorem c1_chunking_changes_output :
    MultipartStream.with_limits (bs "BOUND") {} = .ok (mkStream (bs "BOUND") {}) ∧
    runPolls 8 (mkStream (bs "BOUND") {}) [scenario1Body] = scenario1Parts ∧
    runPolls 8 (mkStream (bs "BOUND") {}) (chunksOf 1 scenario1Body) =
      [.error (parseErr "malformed multipart boundary")] := by
  decide!

/-- C2: the spec claims a surfaced parse error is terminal — the machine
enters `Failed` and later `next_part()` calls report end-of-stream, never
re-emitting the error.  The code violates this for `missing opening
boundary`: that emission site forgets to set `Failed` (every other error
site sets it), so the machine stays in `StartBoundary` and the same error
is emitted again by every subsequent call.  Witnessed by an empty upstream:
both the first and the second `next_part()` return the error, and the
machine is not in `Failed`. -/
theorem c2_error_reemitted_after_surfacing :
    Multipart.with_config (bs "B") {} = .ok (mkMultipart (bs "B") {}) ∧
    (next_part 3 (mkMultipart (bs "B") {}) []).1 =
      .error (parseErr "missing opening boundary") ∧
    (next_part 3 (mkMultipart (bs "B") {}) []).2.1.inner.state ≠ ParseState.failed ∧
    (next_part 3 (next_part 3 (mkMultipart (bs "B") {}) []).2.1 []).1 =
      .error (parseErr "missing opening boundary") := by
  decide!

/-- C5: the spec claims a closing `--BOUND--` with no trailing CRLF is
accepted as terminal once the upstream has ended.  The code's tolerant
branch requires `upstream_done` to be already true when the suffix `--` is
first inspected, which never happens: the suffix is inspected as soon as
the chunk carrying it is appended, before end-of-stream can be observed.
The parser instead fails with `malformed multipart boundary` and emits no
part. -/
theorem c5_terminal_without_crlf_rejected :
    runPolls 4 (mkStream (bs "B") {}) [noCrlfTailBody] =
      [.error (parseErr "malformed multipart boundary")] ∧
    (pollNext (mkStream (bs "B") {}) [noCrlfTailBody]).2.1.state = ParseState.failed := by
  decide!

/-- C9: the spec claims a per-field `allowed_mime_types` list on a
`SelectedField` additionally restricts accepted file parts.  The code
violates this: `validate_file_part` consults only the global allow-list,
and `field_allowed_mime_types` has no caller.  A file part for field `f`
with essence `text/plain` is accepted although the field's list is
`[image/png]` and does not match. -/
theorem c9_per_field_mime_not_enforced :
    Multipart.with_config (bs "B") perFieldMimeConfig =
      .ok (mkMultipart (bs "B") perFieldMimeConfig) ∧
    field_allowed_mime_types (mkMultipart (bs "B") perFieldMimeConfig).selector (bs "f") =
      some [bs "image/png"] ∧
    mimePatternMatches (bs "image/png") (bs "text/plain") = false ∧
    (next_part 5 (mkMultipart (bs "B") perFieldMimeConfig) [perFieldMimeBody]).1 =
      .ok (some ⟨⟨bs "f", some (bs "x"), bs "text/plain"⟩, bs "hi"⟩) := by
  decide!

/-- C4 counterexample: the claim bounds the buffered bytes by what is needed
to resolve a pending delimiter plus a `len(delimiter) - 1` look-ahead, and
says bodies are delivered incrementally.  Feeding one part's headers and
then forty one-byte body chunks with no delimiter pending, the machine
ends holding all forty body bytes in its buffer — ten times the 4-byte
look-ahead even though each chunk is one byte — having delivered none of
them. -/
theorem c4_counterexample_whole_body_buffered :
    (pollNext (mkStream (bs "B") {}) fortyOneByteChunks).2.1.buffer.length = 40 ∧
    (mkStream (bs "B") {}).delimiter.length - 1 = 4 ∧
    (pollNext (mkStream (bs "B") {}) fortyOneByteChunks).1 = some (.error .incompleteStream) := by
  decide!

/-- C6 counterexample: the boundary `:` passes validation, but appending it
unquoted after `boundary=` does not survive the round trip — `:` is not a
token character, so the content-type fails to parse. -/
theorem c6_counterexample_colon_boundary :
    validate_boundary (bs ":") = .ok () ∧
    extract_multipart_boundary (bs "multipart/form-data; boundary=:") =
      .error ⟨"invalid Content-Type header"⟩ := by
  decide!

/-- C7 counterexample: the hyphen is accepted by the source's validator but
is absent from the spec's claimed character set; and a caller-supplied
boundary of 71 characters passes the constructor's check even though the
full validator rejects it — the constructor path does not apply the same
validation. -/
theorem c7_counterexample_hyphen_and_length :
    validate_boundary [45] = .ok () ∧
    specBoundaryChar 45 = false ∧
    validate_boundary_input (List.replicate 71 97) = .ok () ∧
    validate_boundary (List.replicate 71 97) =
      .error ⟨"multipart boundary cannot exceed 70 characters"⟩ := by
  decide!

/-- C3: early per-part size enforcement.  When the machine parses a part's
headers and enters `Body` with the applicable limit chosen by file-ness
(`max_file_size` for a file part, `max_field_size` otherwise), and no
delimiter is in the buffer while the guaranteed body length
`buffer_len - (len(delimiter) - 1)` exceeds that limit, `parse_available`
emits `FileSizeLimitExceeded` or `FieldSizeLimitExceeded` naming the
current field and the limit, and moves to `Failed` — before any terminal
boundary was seen. -/
theorem c3_early_size_enforcement (m : Machine) (split L : Nat) (h : ParsedPartHeaders)
    (hst : m.state = .headers)
    (hsp : find_subslice m.buffer [13, 10, 13, 10] = some split)
    (hph : (parse_header_block (m.buffer.take split)).bind parse_part_headers = .ok h)
    (hlim : (if h.file_name.isSome then m.limits.max_file_size else m.limits.max_field_size) =
      some L)
    (hnd : find_subslice (m.buffer.drop (split + 4)) m.delimiter = none)
    (hgt : (m.buffer.drop (split + 4)).length - (m.delimiter.length - 1) > L) :
    (parse_available m).2 =
      .emit (.error (size_limit_error h.field_name h.file_name.isSome L)) ∧
    (parse_available m).1.state = .failed := by
  have hpa : parse_available m = stepHeaders m := by
    unfold parse_available
    rw [hst]
  rw [hpa]
  unfold stepHeaders
  rw [hsp]
  simp only
  rw [hph]
  simp only
  unfold stepBody
  simp only [hnd, hlim, if_pos hgt]
  exact ⟨trivial, trivial⟩

/-- Closed instance of the early-enforcement theorem: a machine about to
parse a 10-byte file-less part under a 2-byte field limit emits the
field-size error and fails. -/
theorem c3_early_size_enforcement_witness :
    (parse_available headersOverfullMachine).2 =
      .emit (.error (size_limit_error (bs "a") (Option.none : Option (List Nat)).isSome 2)) ∧
    (parse_available headersOverfullMachine).1.state = .failed :=
  c3_early_size_enforcement headersOverfullMachine 40 2 ⟨bs "a", none, bs "text/plain"⟩
    (by decide!) (by decide!) (by decide!) (by decide!) (by decide!) (by decide!)

/-- C10: a failed count check is not recorded.  Whenever
`evaluate_file_field` returns `FieldCountLimitExceeded`, the returned engine
is exactly the input engine — the error names the evaluated field, every
per-field count (including the failed field's) is untouched, and repeating
the same evaluation returns the same error with the same values. -/
theorem c10_failed_count_not_recorded (e : SelectorEngine) (F fld : List Nat) (mc : Nat)
    (h : (evaluate_file_field e F).1 = .error (.fieldCountLimitExceeded fld mc)) :
    (evaluate_file_field e F).2 = e ∧ fld = F ∧
    (∀ G, mapLookup (evaluate_file_field e F).2.counts G = mapLookup e.counts G) ∧
    evaluate_file_field (evaluate_file_field e F).2 F = evaluate_file_field e F := by
  have he : (evaluate_file_field e F).2 = e ∧ fld = F := by
    rcases hE : evaluate_file_field e F with ⟨r, e2⟩
    rw [hE] at h
    simp only at h ⊢
    unfold evaluate_file_field handle_unknown_field record_with_limit at hE
    split at hE <;>
      (try split at hE) <;>
      (try split at hE) <;>
      (try split at hE) <;>
      simp_all <;>
      (rename_i heq2
       split at heq2 <;> (try split at heq2) <;> (try simp_all))
  refine ⟨he.1, he.2, fun G => by rw [he.1], by rw [he.1]⟩

/-- Closed instance of the unchanged-counts theorem: an `Array` selector for
`photos` with limit 2 and a count already at 2 errors without touching its
counts, and the repeated call errors identically. -/
theorem c10_failed_count_not_recorded_witness :
    (evaluate_file_field photosAtLimitEngine (bs "photos")).2 = photosAtLimitEngine ∧
    evaluate_file_field (evaluate_file_field photosAtLimitEngine (bs "photos")).2 (bs "photos") =
      evaluate_file_field photosAtLimitEngine (bs "photos") :=
  ⟨(c10_failed_count_not_recorded photosAtLimitEngine (bs "photos") (bs "photos") 2
      (by decide!)).1,
    (c10_failed_count_not_recorded photosAtLimitEngine (bs "photos") (bs "photos") 2
      (by decide!)).2.2.2⟩

/-- C8: selector semantics for file parts.  Under `Single F` the part named
`F` bumps `F`'s count and fails with `FieldCountLimitExceeded F 1` exactly
when the bumped count would exceed 1; under `Array F (some m)` the same
with limit `m`; under either selector a part with any other name follows
the unknown-field policy (`Reject` gives `UnexpectedField`, `Ignore` gives
the `Ignore` action); and concretely, with `Array photos, max 2` three
parts named `photos` see accept, accept, then
`FieldCountLimitExceeded photos 2`. -/
theorem c8_selector_count_semantics :
    (∀ (e : SelectorEngine) (F : List Nat), e.selector = .single F →
      evaluate_file_field e F =
        (if (mapLookup e.counts F).getD 0 + 1 > 1
          then (.error (.fieldCountLimitExceeded F 1), e)
          else (.ok .accept,
            { e with counts := mapInsert e.counts F ((mapLookup e.counts F).getD 0 + 1) }))) ∧
    (∀ (e : SelectorEngine) (F : List Nat) (m : Nat), e.selector = .array F (some m) →
      evaluate_file_field e F =
        (if (mapLookup e.counts F).getD 0 + 1 > m
          then (.error (.fieldCountLimitExceeded F m), e)
          else (.ok .accept,
            { e with counts := mapInsert e.counts F ((mapLookup e.counts F).getD 0 + 1) }))) ∧
    (∀ (e : SelectorEngine) (F N : List Nat) (mc : Option Nat),
      (e.selector = .single F ∨ e.selector = .array F mc) → N ≠ F →
      evaluate_file_field e N =
        ((match e.unknown_field_policy with
          | .reject => .error (.unexpectedField N)
          | .ignore => .ok .ignore), e)) ∧
    ((evaluate_file_field photosEngine0 (bs "photos")).1 = .ok .accept ∧
      (evaluate_file_field photosEngine1 (bs "photos")).1 = .ok .accept ∧
      (evaluate_file_field photosEngine2 (bs "photos")).1 =
        .error (.fieldCountLimitExceeded (bs "photos") 2) ∧
      photosEngine1 = (evaluate_file_field photosEngine0 (bs "photos")).2 ∧
      photosEngine2 = (evaluate_file_field photosEngine1 (bs "photos")).2) := by
  refine ⟨?_, ?_, ?_, by decide!⟩
  · intro e F hsel
    unfold evaluate_file_field record_with_limit
    rw [hsel]
    simp only [ne_eq, not_true_eq_false, if_false]
    by_cases hc : (mapLookup e.counts F).getD 0 + 1 > 1
    · simp only [if_pos hc]
    · simp only [if_neg hc]
  · intro e F m hsel
    unfold evaluate_file_field record_with_limit
    rw [hsel]
    simp only [ne_eq, not_true_eq_false, if_false]
    by_cases hc : (mapLookup e.counts F).getD 0 + 1 > m
    · simp only [if_pos hc]
    · simp only [if_neg hc]
  · intro e F N mc hsel hne
    rcases hsel with hsel | hsel <;>
      cases hp : e.unknown_field_policy <;>
      simp [evaluate_file_field, handle_unknown_field, hsel, hp, hne]

/-- Closed instance of the selector-semantics theorem: a fresh `Single
avatar` engine accepts the first `avatar` part and records count 1. -/
theorem c8_selector_count_semantics_witness :
    evaluate_file_field singleAvatarEngine (bs "avatar") =
      (.ok .accept,
        { singleAvatarEngine with
            counts := mapInsert singleAvatarEngine.counts (bs "avatar")
              ((mapLookup singleAvatarEngine.counts (bs "avatar")).getD 0 + 1) }) := by
  rw [c8_selector_count_semantics.1 singleAvatarEngine (bs "avatar") rfl]
  decide!

/-- A byte string starting with `l₁` yields `l₁` back when truncated to its
length. -/
theorem isPrefixOf_take (l₁ : List Nat) :
    ∀ l₂ : List Nat, l₁.isPrefixOf l₂ = true → l₂.take l₁.length = l₁ := by
  induction l₁ with
  | nil => intro l₂ _; simp
  | cons a t ih =>
    intro l₂ h
    cases l₂ with
    | nil => simp [List.isPrefixOf] at h
    | cons b t₂ =>
      simp only [List.isPrefixOf, Bool.and_eq_true, beq_iff_eq] at h
      simp [h.1, ih t₂ h.2]

/-- Soundness of the scanning loop of `find_subslice`: a reported position
is an offset where the needle occurs, within bounds. -/
theorem find_subslice_go_spec (needle : List Nat) :
    ∀ (hay : List Nat) (i j : Nat), find_subslice.go needle hay i = some j →
      ∃ k, j = i + k ∧ needle.isPrefixOf (hay.drop k) = true ∧
        k + needle.length ≤ hay.length := by
  intro hay
  induction hay with
  | nil =>
    intro i j h
    unfold find_subslice.go at h
    split at h
    · split at h
      · refine ⟨0, ?_, ?_, ?_⟩ <;> simp_all
      · simp at h
    · simp at h
  | cons a t ih =>
    intro i j h
    unfold find_subslice.go at h
    split at h
    next hlen =>
      split at h
      next hpre =>
        refine ⟨0, ?_, ?_, ?_⟩ <;> simp_all
      next hpre =>
        obtain ⟨k, hk, hp, hl⟩ := ih (i + 1) j h
        refine ⟨k + 1, by omega, by simpa using hp, ?_⟩
        simp only [List.length_cons]
        omega
    next hlen => simp at h

/-- Soundness of `find_subslice`: at a reported index the needle occurs in
the haystack, within bounds. -/
theorem find_subslice_sound (hay needle : List Nat) (j : Nat)
    (h : find_subslice hay needle = some j) :
    (hay.drop j).take needle.length = needle ∧ j + needle.length ≤ hay.length := by
  unfold find_subslice at h
  split at h
  · simp only [Option.some.injEq] at h
    subst h
    simp_all
  · obtain ⟨k, hk, hp, hl⟩ := find_subslice_go_spec needle hay 0 j h
    subst hk
    simp only [Nat.zero_add]
    exact ⟨isPrefixOf_take _ _ hp, hl⟩

/-- C4 (amended): the state machine materializes each part's body whole.
Whenever the `Body` state emits a part, the pre-step buffer starts with the
complete body followed by the delimiter — so the entire body (plus the
delimiter) was buffered at once, and the part carries it as one buffer
(`ParsedPart.body`), not incrementally. -/
theorem c4_whole_body_buffered (m o : Machine) (p : ParsedPart)
    (hst : m.state = .body)
    (hemit : parse_available m = (o, .emit (.ok p))) :
    m.buffer.take (p.body.length + m.delimiter.length) = p.body ++ m.delimiter ∧
    p.body.length + m.delimiter.length ≤ m.buffer.length := by
  have hsb : stepBody m = (o, .emit (.ok p)) := by
    unfold parse_available at hemit
    rw [hst] at hemit
    exact hemit
  unfold stepBody finishPart at hsb
  rcases hfs : find_subslice m.buffer m.delimiter with _ | split
  · rw [hfs] at hsb
    split at hsb <;> (try split at hsb) <;> (try split at hsb) <;>
      (try split at hsb) <;> simp_all <;>
      (rw [ite_eq_iff] at hsb
       rcases hsb with ⟨_, hsb⟩ | ⟨_, hsb⟩ <;> simp_all)
  · rw [hfs] at hsb
    obtain ⟨htake, hlen⟩ := find_subslice_sound _ _ _ hfs
    have hsplit_le : split ≤ m.buffer.length := by omega
    simp only at hsb
    rw [if_neg (by omega)] at hsb
    have hbody : p.body = m.buffer.take split := by
      split at hsb
      · simp_all
      · split at hsb
        · split at hsb
          · split at hsb <;> simp_all
          · split at hsb <;> simp_all <;> rw [← hsb.2]
        · split at hsb <;> simp_all <;> rw [← hsb.2]
    have hblen : p.body.length = split := by
      rw [hbody, List.length_take]
      omega
    constructor
    · rw [hblen, List.take_add, hbody, htake]
    · omega

/-- Closed instance of the whole-body theorem: a `Body`-state machine whose
buffer holds `hi`, the delimiter and a suffix emits the part and indeed had
body-plus-delimiter as buffer head. -/
theorem c4_whole_body_buffered_witness :
    bodyEmitMachine.buffer.take ((bs "hi").length + bodyEmitMachine.delimiter.length) =
      bs "hi" ++ bodyEmitMachine.delimiter ∧
    (bs "hi").length + bodyEmitMachine.delimiter.length ≤ bodyEmitMachine.buffer.length :=
  c4_whole_body_buffered bodyEmitMachine (parse_available bodyEmitMachine).1
    ⟨⟨bs "a", none, bs "text/plain"⟩, bs "hi"⟩ (by decide!) (by decide!)

/-- C7 (amended): `validate_boundary` accepts exactly the byte strings of 1
to 70 bytes drawn from the spec's character set plus the hyphen
(`amendedBoundaryChar`) that do not end in a space; and the caller-supplied
path (`validate_boundary_input`, used by the stream constructor) checks only
non-emptiness and the absence of CR and LF, not the full validation. -/
theorem c7_boundary_validation_characterization :
    (∀ b : List Nat, validate_boundary b = .ok () ↔
      (1 ≤ b.length ∧ b.length ≤ 70 ∧ (∀ c ∈ b, amendedBoundaryChar c = true) ∧
        b.getLast? ≠ some 32)) ∧
    (∀ b : List Nat, validate_boundary_input b = .ok () ↔
      (b ≠ [] ∧ 13 ∉ b ∧ 10 ∉ b)) := by
  constructor
  · intro b
    unfold validate_boundary
    constructor
    · intro h
      split_ifs at h with h1 h2 h3 h4 <;> simp at h
      exact ⟨List.length_pos.mpr h1, by omega,
        fun c hc => List.all_eq_true.mp h4 c hc, h3⟩
    · rintro ⟨h1, h2, h3, h4⟩
      have hne : b ≠ [] := by
        intro hb
        rw [hb] at h1
        simp at h1
      rw [if_neg hne, if_neg (by omega), if_neg h4,
        if_pos (show b.all is_boundary_char = true from
          List.all_eq_true.mpr fun c hc => h3 c hc)]
  · intro b
    unfold validate_boundary_input
    constructor
    · intro h
      split_ifs at h with h1 h2 <;> simp at h
      push_neg at h2
      exact ⟨h1, fun hm => h2.1 (List.elem_iff.mpr hm),
        fun hm => h2.2 (List.elem_iff.mpr hm)⟩
    · rintro ⟨h1, h2, h3⟩
      have hc : ¬(b.contains 13 = true ∨ b.contains 10 = true) := by
        rintro (hc | hc)
        · exact h2 (List.elem_iff.mp hc)
        · exact h3 (List.elem_iff.mp hc)
      rw [if_neg h1, if_neg hc]

/-- Closed instance of the validation characterization: a legal RFC 2046
boundary is accepted by the full validator, and `BOUND` by the
constructor's check. -/
theorem c7_boundary_validation_witness :
    validate_boundary (bs "gc0pJq0M:08jU534c0p") = .ok () ∧
    validate_boundary_input (bs "BOUND") = .ok () :=
  ⟨(c7_boundary_validation_characterization.1 (bs "gc0pJq0M:08jU534c0p")).mpr (by decide),
    (c7_boundary_validation_characterization.2 (bs "BOUND")).mpr (by decide)⟩

/-- `takeWhile` walks through a block whose elements all satisfy the
predicate. -/
theorem takeWhile_append_of_all {p : Nat → Bool} :
    ∀ xs ys : List Nat, (∀ x ∈ xs, p x = true) →
      (xs ++ ys).takeWhile p = xs ++ ys.takeWhile p := by
  intro xs
  induction xs with
  | nil => intro ys _; simp
  | cons a t ih =>
    intro ys h
    have ha : p a = true := h a (by simp)
    simp [List.takeWhile_cons, ha, ih ys fun x hx => h x (by simp [hx])]

/-- `dropWhile` walks through a block whose elements all satisfy the
predicate. -/
theorem dropWhile_append_of_all {p : Nat → Bool} :
    ∀ xs ys : List Nat, (∀ x ∈ xs, p x = true) →
      (xs ++ ys).dropWhile p = ys.dropWhile p := by
  intro xs
  induction xs with
  | nil => intro ys _; simp
  | cons a t ih =>
    intro ys h
    have ha : p a = true := h a (by simp)
    simp [List.dropWhile_cons, ha, ih ys fun x hx => h x (by simp [hx])]

/-- `takeWhile` keeps a list whose elements all satisfy the predicate. -/
theorem takeWhile_of_all {p : Nat → Bool} :
    ∀ xs : List Nat, (∀ x ∈ xs, p x = true) → xs.takeWhile p = xs := by
  intro xs
  induction xs with
  | nil => intro _; simp
  | cons a t ih =>
    intro h
    simp [List.takeWhile_cons, h a (by simp), ih fun x hx => h x (by simp [hx])]

/-- `dropWhile` drops a list whose elements all satisfy the predicate. -/
theorem dropWhile_of_all {p : Nat → Bool} :
    ∀ xs : List Nat, (∀ x ∈ xs, p x = true) → xs.dropWhile p = [] := by
  intro xs
  induction xs with
  | nil => intro _; simp
  | cons a t ih =>
    intro h
    simp [List.dropWhile_cons, h a (by simp), ih fun x hx => h x (by simp [hx])]

/-- A token run forms a whole parameter value. -/
theorem parseParamValue_all_token (b : List Nat) (hne : b ≠ [])
    (hall : ∀ c ∈ b, isTokenByte c = true) : parseParamValue b = some (b, []) := by
  rw [parseParamValue.eq_def]
  split
  next =>
    exfalso
    have h34 : isTokenByte 34 = true := hall 34 (by simp)
    simp [isTokenByte, isDigitByte, isAlphaByte] at h34
  next =>
    rw [takeWhile_of_all b hall, dropWhile_of_all b hall]
    simp [hne]

/-- Parsing `multipart/form-data; boundary=` followed by a non-empty token
run recovers exactly that run as the `boundary` parameter. -/
theorem parseMime_boundary_concat (b : List Nat) (hne : b ≠ [])
    (hall : ∀ c ∈ b, isTokenByte c = true) :
    parseMime (bs "multipart/form-data; boundary=" ++ b) =
      some ⟨bs "multipart/form-data", [(bs "boundary", b)]⟩ := by
  have hdec : bs "multipart/form-data; boundary=" ++ b =
      bs "multipart" ++ 47 :: (bs "form-data" ++ 59 :: 32 :: (bs "boundary" ++ 61 :: b)) := by
    rw [show bs "multipart/form-data; boundary=" =
        bs "multipart" ++ 47 :: (bs "form-data" ++ 59 :: 32 :: (bs "boundary" ++ [61]))
      from by decide]
    simp
  rw [hdec]
  unfold parseMime
  rw [takeWhile_append_of_all _ _ (by decide), dropWhile_append_of_all _ _ (by decide)]
  have h47 : isTokenByte 47 = false := by decide
  have h59 : isTokenByte 59 = false := by decide
  rw [show ∀ r : List Nat, (47 :: r).takeWhile isTokenByte = [] from fun r => by
    simp [List.takeWhile_cons, h47]]
  rw [show ∀ r : List Nat, (47 :: r).dropWhile isTokenByte = 47 :: r from fun r => by
    simp [List.dropWhile_cons, h47]]
  simp only []
  rw [takeWhile_append_of_all _ _ (by decide), dropWhile_append_of_all _ _ (by decide)]
  rw [show ∀ r : List Nat, (59 :: r).takeWhile isTokenByte = [] from fun r => by
    simp [List.takeWhile_cons, h59]]
  rw [show ∀ r : List Nat, (59 :: r).dropWhile isTokenByte = 59 :: r from fun r => by
    simp [List.dropWhile_cons, h59]]
  simp only [List.append_nil]
  rw [if_neg (by decide)]
  simp only [parseParamsGo]
  have hbd : bs "boundary" ++ 61 :: b = 98 :: (bs "oundary" ++ 61 :: b) := by
    rw [show bs "boundary" = 98 :: bs "oundary" from by decide]
    simp
  have hdrop : List.dropWhile (fun c => decide (c = 32 ∨ c = 9))
      (32 :: (bs "boundary" ++ 61 :: b)) = bs "boundary" ++ 61 :: b := by
    rw [List.dropWhile_cons, if_pos (by decide), hbd, List.dropWhile_cons,
      if_neg (by decide), ← hbd]
  have h61 : isTokenByte 61 = false := by decide
  have hname : List.takeWhile isTokenByte (bs "boundary" ++ 61 :: b) = bs "boundary" := by
    rw [takeWhile_append_of_all _ _ (by decide)]
    simp [List.takeWhile_cons, h61]
  have hrest : List.dropWhile isTokenByte (bs "boundary" ++ 61 :: b) = 61 :: b := by
    rw [dropWhile_append_of_all _ _ (by decide)]
    simp [List.dropWhile_cons, h61]
  rw [hdrop, hname, hrest]
  rw [if_neg (by decide)]
  simp [parseParamValue_all_token b hne hall, parseParamsGo,
    show toLowerBytes (bs "boundary") = bs "boundary" from by decide,
    show toLowerBytes (bs "multipart" ++ 47 :: bs "form-data") = bs "multipart/form-data"
      from by decide]

/-- C6 (amended): the boundary round trip holds for every boundary of HTTP
token characters — for any non-empty `b` of at most 70 bytes whose bytes
are all both token bytes and validator-accepted bytes,
`extract_multipart_boundary` applied to
`multipart/form-data; boundary=` ++ `b` returns exactly `b`.  (Validator
characters outside the token set — space, parentheses, comma, slash,
colon, equals, question mark — do not survive the unquoted round trip:
the content type fails to parse, as the counterexample shows.) -/
theorem c6_roundtrip_token_boundary (b : List Nat)
    (hne : b ≠ []) (hlen : b.length ≤ 70)
    (hch : ∀ c ∈ b, isTokenByte c = true ∧ is_boundary_char c = true) :
    extract_multipart_boundary (bs "multipart/form-data; boundary=" ++ b) = .ok b := by
  unfold extract_multipart_boundary
  rw [parseMime_boundary_concat b hne fun c hc => (hch c hc).1]
  have hval : validate_boundary b = .ok () := by
    unfold validate_boundary
    have hlast : ¬ b.getLast? = some 32 := by
      intro hl
      have h32 : (32 : Nat) ∈ b := List.mem_of_mem_getLast? hl
      have := (hch 32 h32).1
      simp [isTokenByte, isDigitByte, isAlphaByte] at this
    rw [if_neg hne, if_neg (by omega), if_neg hlast,
      if_pos (show b.all is_boundary_char = true from
        List.all_eq_true.mpr fun c hc => (hch c hc).2)]
  simp [getParam, List.find?, hval,
    show decide (bs "boundary" = toLowerBytes (bs "boundary")) = true from by decide]

/-- Closed instance of the round-trip theorem at the boundary `abc123`. -/
theorem c6_roundtrip_token_boundary_witness :
    extract_multipart_boundary (bs "multipart/form-data; boundary=" ++ bs "abc123") =
      .ok (bs "abc123") :=
  c6_roundtrip_token_boundary (bs "abc123") (by decide) (by decide) (by decide)

end Multer








